import Mathlib

/-!
Verification of the pico-touchscr-sdk core against its design spec.

The display part (ili9341.c / ili9341.h) keeps a screen buffer of two
planes: a 1 bit-per-pixel plane `mpPixBuffer` (stored as uint32 words,
bit n of the plane being bit `31 - n % 32` of word `n / 32`) and a color
plane `mpColorBuffer` of one byte per 8x8 block
(`Flash|Changed|Pap2|Pap1|Pap0|Ink2|Ink1|Ink0`).  We embed the pixel
plane as a function from the flat bit index `n = y * PIX_WIDTH + x` to
Bool: the C macros GET/SET/CLR_DATA_BIT address single bits through the
bijection above, a whole-word store to word `w` acts on exactly the bit
indices `n` with `n / 32 = w`, and the byte-level memmove/memset in
TftScrollVerticalZone work on word-aligned byte ranges (all offsets and
sizes are multiples of 4 bytes), so they translate to shifts of the flat
bit index.  The color plane is a function from the block index
`k = sym_y * TEXT_WIDTH + sym_x` to the byte value (a Nat).  Both planes
are total functions on Int so that the pointer arithmetic of the C code
(which never bounds-checks) can be reproduced literally; indices outside
the real buffer correspond to out-of-bounds memory of the C program.

C `int` arithmetic is embedded as Int (no operation relevant to the
claims can overflow 32 bits), `uint64_t` time arithmetic as Nat with an
explicit `% 2^64`, and the float arithmetic of the calibration unit as
exact Rat arithmetic (noted at each claim that uses it).
-/

/-- C left shift `a << n` on int (operands are nonnegative at every use
relevant to the claims). -/
def cShl (a : Int) (n : Nat) : Int := a * 2 ^ n

/-- C right shift `a >> n` on int: arithmetic shift, i.e. floor division
by `2 ^ n` (gcc semantics on the target). -/
def cSar (a : Int) (n : Nat) : Int := Int.fdiv a (2 ^ n)

/-- PIX_WIDTH of ili9341hw.h. -/
def PIX_WIDTH : Int := 240

/-- PIX_HEIGHT of ili9341hw.h. -/
def PIX_HEIGHT : Int := 320

/-- TEXT_WIDTH of ili9341hw.h (PIX_WIDTH / 8). -/
def TEXT_WIDTH : Int := 30

/-- TEXT_HEIGHT of ili9341hw.h (PIX_HEIGHT / 8). -/
def TEXT_HEIGHT : Int := 40

/-- TEXT_CHARCOUNT of ili9341hw.h (TEXT_WIDTH * TEXT_HEIGHT). -/
def TEXT_CHARCOUNT : Nat := 1200

/-- PIX_BYTE_STRIDE of ili9341hw.h (PIX_WIDTH / 8): bytes per pixel row. -/
def PIX_BYTE_STRIDE : Int := 30

/-- screen_control_t of ili9341.h.  `mpPixBuffer` is the 1bpp plane as a
flat bit array (see the file comment), `mpColorBuffer` the per-block
attribute byte.  The hardware config pointer is irrelevant to the claims
and omitted; `color_t` enumerators are embedded as their int values. -/
structure screen_control_t where
  mpPixBuffer : Int → Bool
  mpColorBuffer : Int → Nat
  mCursorX : Int
  mCursorY : Int
  mCanvasPaper : Int
  mCanvasInk : Int

/-- TftPutColorAttr of ili9341.c: rewrites the color attributes of block
(x, y) and sets its `need update` (dirty) bit 6.  The C code clears the
low six bits with `&= 0b11000000` and ORs in ink, paper << 3 and 1 << 6;
every intermediate value is below 256 so the uint8_t stores truncate
nothing. -/
def TftPutColorAttr (pscr : screen_control_t) (x y paper ink : Int) :
    screen_control_t :=
  let box := x + TEXT_WIDTH * y
  { pscr with
    mpColorBuffer := fun k =>
      if k = box then
        (pscr.mpColorBuffer k &&& 192) ||| (Int.land ink 7).toNat |||
          ((Int.land paper 7).toNat <<< 3) ||| (1 <<< 6)
      else pscr.mpColorBuffer k }

/-- TftPutPixel of ili9341.c: clips strictly outside
[0, PIX_WIDTH) x [0, PIX_HEIGHT) (the test is `x > PIX_WIDTH - 1`,
`y > PIX_HEIGHT - 1`), else sets the pixel bit and stamps the containing
block's colors and dirty flag via TftPutColorAttr. -/
def TftPutPixel (pscr : screen_control_t) (x y paper ink : Int) :
    screen_control_t :=
  if x < 0 ∨ y < 0 ∨ x > PIX_WIDTH - 1 ∨ y > PIX_HEIGHT - 1 then pscr
  else
    let pscr :=
      { pscr with
        mpPixBuffer := fun n =>
          if n = x + y * PIX_WIDTH then true else pscr.mpPixBuffer n }
    TftPutColorAttr pscr (cSar x 3) (cSar y 3) paper ink

/-- Loop body of TftPutLine (`for (; cnt; --cnt) ...` with cnt starting
at 1000): sets the pixel bit at (x0, y0) and the dirty bit of its block,
breaks once the end point is reached, else performs one Bresenham step. -/
def TftPutLineLoop (pscr : screen_control_t)
    (x0 y0 x1 y1 sx sy dx dy err : Int) : Nat → screen_control_t
  | 0 => pscr
  | Nat.succ cnt =>
    let pscr :=
      { pscr with
        mpPixBuffer := fun n =>
          if n = x0 + y0 * PIX_WIDTH then true else pscr.mpPixBuffer n,
        mpColorBuffer := fun k =>
          if k = cSar x0 3 + cSar y0 3 * TEXT_WIDTH then
            pscr.mpColorBuffer k ||| (1 <<< 6)
          else pscr.mpColorBuffer k }
    if x0 = x1 ∧ y0 = y1 then pscr
    else
      let e2 := err
      let err := if e2 > -dx then err - dy else err
      let x0 := if e2 > -dx then x0 + sx else x0
      let err := if e2 < dy then err + dx else err
      let y0 := if e2 < dy then y0 + sy else y0
      TftPutLineLoop pscr x0 y0 x1 y1 sx sy dx dy err cnt

/-- TftPutLine of ili9341.c.  Note the asymmetric clip: negative
coordinates are rejected, but the upper test is `x > PIX_WIDTH` and
`y > PIX_HEIGHT`, so end points with x = 240 or y = 320 are accepted.
`err` is computed with C truncating division (Int.div). -/
def TftPutLine (pscr : screen_control_t) (x0 y0 x1 y1 : Int) :
    screen_control_t :=
  if x0 < 0 ∨ y0 < 0 ∨ x1 < 0 ∨ y1 < 0 then pscr
  else if x0 > PIX_WIDTH ∨ y0 > PIX_HEIGHT ∨ x1 > PIX_WIDTH ∨
      y1 > PIX_HEIGHT then pscr
  else
    let sx : Int := if x0 < x1 then 1 else -1
    let sy : Int := if y0 < y1 then 1 else -1
    let dx := if x1 > x0 then x1 - x0 else x0 - x1
    let dy := if y1 > y0 then y1 - y0 else y0 - y1
    let err := Int.tdiv (if dx > dy then dx else -dy) 2
    TftPutLineLoop pscr x0 y0 x1 y1 sx sy dx dy err 1000

/-- TftClearRect8 of ili9341.c.  For each of the 8 rows the C code
executes `mpPixBuffer[shft >> 5] = 0` with
`shft = (x << 3) + (j + (y << 3)) * PIX_WIDTH`: a whole 32-bit word
store, which clears every flat bit index n with `n / 32 = shft / 32`
(32 pixels, not 8).  Then it sets the dirty bit of block (x, y) only. -/
def TftClearRect8 (pscr : screen_control_t) (x y : Int) :
    screen_control_t :=
  let pix :=
    (List.range 8).foldl
      (fun (p : Int → Bool) (j : Nat) =>
        let shft := cShl x 3 + ((j : Int) + cShl y 3) * PIX_WIDTH
        fun n => if cSar n 5 = cSar shft 5 then false else p n)
      pscr.mpPixBuffer
  { pscr with
    mpPixBuffer := pix,
    mpColorBuffer := fun k =>
      if k = x + TEXT_WIDTH * y then pscr.mpColorBuffer k ||| (1 <<< 6)
      else pscr.mpColorBuffer k }

/-- TftScrollVerticalZone of ili9341.c.  Byte offsets and sizes of the
memmove/memset are translated to flat bit indices (x8); the attribute
memmove copies `(bot_y - top_y) * TEXT_WIDTH` bytes from
`top_y * TEXT_WIDTH + TEXT_WIDTH` onward — i.e. it reads through
attribute row `bot_y`, one row below the scrolled zone (out of the
array when `bot_y = TEXT_HEIGHT`) — and the dirty loop then ORs bit 6
over rows [top_y, bot_y). -/
def TftScrollVerticalZone (pscr : screen_control_t) (top_y bot_y : Int) :
    screen_control_t :=
  let kscroll_area_height := bot_y - top_y
  let kscroll_area_bytes := cShl (kscroll_area_height - 1) 3 * PIX_BYTE_STRIDE
  let destBit := top_y * TEXT_WIDTH * 8 * 8
  { pscr with
    mpPixBuffer := fun n =>
      if destBit ≤ n ∧ n < destBit + kscroll_area_bytes * 8 then
        pscr.mpPixBuffer (n + PIX_BYTE_STRIDE * 8 * 8)
      else if destBit + kscroll_area_bytes * 8 ≤ n ∧
          n < destBit + kscroll_area_bytes * 8 + 8 * PIX_BYTE_STRIDE * 8 then
        false
      else pscr.mpPixBuffer n,
    mpColorBuffer := fun k =>
      if top_y * TEXT_WIDTH ≤ k ∧
          k < top_y * TEXT_WIDTH + kscroll_area_height * TEXT_WIDTH then
        pscr.mpColorBuffer (k + TEXT_WIDTH) ||| (1 <<< 6)
      else pscr.mpColorBuffer k }

/-- spPalette of ili9341.h: 8 byte-swapped 16-bit colors. -/
def spPalette : List Nat :=
  [0x0000, 0x1F00, 0x00F8, 0x1FF8, 0xE007, 0xFF07, 0xE0FF, 0xFFFF]

/-- Pixel data TftSymbolWrite streams over SPI for the 8x8 block at
(sym_x, sym_y) whose attribute byte is `v`: 8 rows of 8 palette entries,
chosen by the pixel bit through the block's ink (bits 0-2) or paper
(bits 3-5) index. -/
def TftSymbolData (pix : Int → Bool) (v : Nat) (sym_x sym_y : Int) :
    List (List Nat) :=
  let pix_tl_x := cShl sym_x 3
  let pix_tl_y := cShl sym_y 3
  let paper := (v >>> 3) &&& 7
  let ink := v &&& 7
  (List.range 8).map fun j =>
    (List.range 8).map fun i =>
      if pix ((pix_tl_y + (j : Int)) * PIX_WIDTH + pix_tl_x + (i : Int)) then
        spPalette.getD ink 0
      else spPalette.getD paper 0

/-- TftSymbolWrite of ili9341.c, on the color plane: after streaming
the rendered block (TftSymbolData) it clears the `need update` bit with
`*psym_box &= ~(1 << 6)` (mask 0xBF = 191). -/
def TftSymbolWriteAttr (attr : Int → Nat) (sym_x sym_y : Int) :
    Int → Nat :=
  fun k =>
    if k = sym_y * TEXT_WIDTH + sym_x then attr k &&& 191 else attr k

/-- Scan loop of TftFullScreenSelectiveWrite.  The C double loop over
`j < TEXT_HEIGHT`, `i < TEXT_WIDTH` probes block index
`line + i = j * TEXT_WIDTH + i`; flattened here over the list of those
indices in the same (row-major, ascending) order, `i = k % TEXT_WIDTH`
and `j = k / TEXT_WIDTH`.  For a dirty block (`(attr k >> 6) & 1`) it
performs TftSymbolWrite — recorded as the pair (index, streamed data) —
and then `if (!--nblock_max) return 0;`: the budget is a C int,
decremented only on writes, compared to 0 after the decrement. -/
def TftSelectiveScan (pix : Int → Bool) (attr : Int → Nat) :
    List Int → Int → (Int → Nat) × List (Int × List (List Nat)) × Int
  | [], _ => (attr, [], 1)
  | k :: rest, nblock_max =>
    if (attr k >>> 6) &&& 1 = 1 then
      let data := TftSymbolData pix (attr k) (k % TEXT_WIDTH) (k / TEXT_WIDTH)
      let attr := TftSymbolWriteAttr attr (k % TEXT_WIDTH) (k / TEXT_WIDTH)
      if nblock_max - 1 = 0 then (attr, [(k, data)], 0)
      else
        let r := TftSelectiveScan pix attr rest (nblock_max - 1)
        (r.1, (k, data) :: r.2.1, r.2.2)
    else TftSelectiveScan pix attr rest nblock_max

/-- Block indices in the order the selective-write scan visits them:
`j * TEXT_WIDTH + i` for j = 0..TEXT_HEIGHT-1, i = 0..TEXT_WIDTH-1,
i.e. 0, 1, ..., TEXT_CHARCOUNT - 1. -/
def blockScanOrder : List Int :=
  (List.range TEXT_CHARCOUNT).map (fun (n : Nat) => (n : Int))

/-- TftFullScreenSelectiveWrite of ili9341.c: runs the scan over all
blocks; returns the updated screen, the list of (block index, streamed
data) written to the device, and the status (0 = stopped by the budget,
perhaps blocks still pending; 1 = scan ran to the end). -/
def TftFullScreenSelectiveWrite (pscr : screen_control_t)
    (nblock_max : Int) :
    screen_control_t × List (Int × List (List Nat)) × Int :=
  let r := TftSelectiveScan pscr.mpPixBuffer pscr.mpColorBuffer
    blockScanOrder nblock_max
  ({ pscr with mpColorBuffer := r.1 }, r.2.1, r.2.2)

/-- touch_hwconfig_t of msp2807_touch.h (only the press-detect pin id is
kept; the SPI plumbing is an external collaborator). -/
structure touch_hwconfig_t where
  mGPIO_ispressed : Int
  deriving DecidableEq

/-- touch_control_t of msp2807_touch.h.  The hardware config pointer is
an Option (none = NULL); times are uint64 values embedded as Nat. -/
structure touch_control_t where
  mpHWConfig : Option touch_hwconfig_t
  mIsPressed : Bool
  mTmOfLastTouch : Nat
  mIsProcessed : Bool
  mX : Int
  mY : Int
  mXf : Int
  mYf : Int
  mkTmMinFlick : Int
  mkTmLongFlick : Int
  mkBetaShft : Int
  deriving DecidableEq

/-- One polling tick's hardware inputs: the level of the press-detect
GPIO (pulled up, pressed = low = false), the 64-bit timer value (timehr
<< 32 | timelr), and the two bytes the X/Y register reads return. -/
structure touch_env_t where
  gpioIsPressedLevel : Bool
  timeNow : Nat
  rawX : Nat
  rawY : Nat
  deriving DecidableEq

/-- uint64 subtraction `a - b` (operands reduced mod 2^64). -/
def u64Sub (a b : Nat) : Nat := (a % 2 ^ 64 + 2 ^ 64 - b % 2 ^ 64) % 2 ^ 64

/-- C conversion of a signed int to uint64 (as in comparing
`ktm64_now - mTmOfLastTouch` against the int thresholds). -/
def intToU64 (i : Int) : Nat := (i % (2 ^ 64 : Int)).toNat

/-- TouchReadRegisters of msp2807_touch.c: stores the two bytes read
from the device into mX/mY and raises mIsProcessed. -/
def TouchReadRegisters (env : touch_env_t) (c : touch_control_t) :
    touch_control_t :=
  { c with mX := (env.rawX : Int), mY := (env.rawY : Int),
           mIsProcessed := true }

/-- Single-pole filter update of CheckTouch, as applied per axis:
`f += ((raw << 14) - f + (1 << (beta - 1))) >> beta` with int shifts
(the right shift on a possibly negative value is arithmetic). -/
def touchFilterStep (target : Int) (beta : Int) (f : Int) : Int :=
  f + cSar (target - f + cShl 1 (beta - 1).toNat) beta.toNat

/-- CheckTouch of msp2807_touch.c for one tick.  Returns the updated
control structure and the status code.  `kb_ispressed` is the raw GPIO
level; the sampling path runs when the level is low (`!kb_ispressed`,
i.e. physically pressed, the line being active low) and always returns
0; a high level returns 1 with the state untouched; a NULL control
structure gives -1, a NULL hardware config or beta <= 0 gives -2. -/
def CheckTouch (env : touch_env_t) (pcontrol : Option touch_control_t) :
    Option touch_control_t × Int :=
  match pcontrol with
  | none => (none, -1)
  | some c =>
    if c.mpHWConfig.isSome ∧ c.mkBetaShft > 0 then
      let kb_ispressed := env.gpioIsPressedLevel
      if ¬kb_ispressed then
        let ktm64_now := env.timeNow % 2 ^ 64
        let c :=
          if u64Sub ktm64_now c.mTmOfLastTouch >
              intToU64 c.mkTmLongFlick then
            let c := TouchReadRegisters env c
            { c with mTmOfLastTouch := ktm64_now,
                     mXf := cShl c.mX 14, mYf := cShl c.mY 14 }
          else c
        let c :=
          if u64Sub ktm64_now c.mTmOfLastTouch >
              intToU64 c.mkTmMinFlick then
            let c := TouchReadRegisters env c
            let c := { c with mTmOfLastTouch := ktm64_now }
            { c with
              mXf := touchFilterStep (cShl c.mX 14) c.mkBetaShft c.mXf,
              mYf := touchFilterStep (cShl c.mY 14) c.mkBetaShft c.mYf }
          else c
        (some c, 0)
      else (some c, 1)
    else (some c, -2)

/-- calibration_mat_t of msp2807_calibration.h.  The floats are
embedded as exact rationals: every claim settled against this model is
evaluated only at inputs where each float operation the C code performs
is exact, so the rational and float runs coincide there. -/
structure calibration_mat_t where
  KX1 : Rat
  KX2 : Rat
  KX3 : Rat
  KY1 : Rat
  KY2 : Rat
  KY3 : Rat
  deriving DecidableEq

/-- Truncation of a rational toward zero, as the C cast `(int16_t)` of
a float value truncates (all claim-relevant values fit in int16, where
the conversion is defined). -/
def ratTruncToInt (r : Rat) : Int := if 0 ≤ r then ⌊r⌋ else ⌈r⌉

/-- TouchTransformCoords of msp2807_calibration.c.  The function maps
in place: `*Px` is assigned first, and the second statement reads
`(float)(*Px)` — the already transformed X — when computing `*Py`.
`d1024 = 1/1024` is exact in float. -/
def TouchTransformCoords (pcmat : calibration_mat_t) (Px Py : Int) :
    Int × Int :=
  let d1024 : Rat := 1 / 1024
  let Px := ratTruncToInt
    (d1024 * pcmat.KX1 * (Px : Rat) + d1024 * pcmat.KX2 * (Py : Rat) +
      pcmat.KX3 + 1 / 2)
  let Py := ratTruncToInt
    (d1024 * pcmat.KY1 * (Px : Rat) + d1024 * pcmat.KY2 * (Py : Rat) +
      pcmat.KY3 + 1 / 2)
  (Px, Py)

/-- Reading of the spec sentence for applyTransform ("maps one point
... using the six coefficients" with the 1/1024 pre-scale and rounding
to nearest), as claim C9 states it: both output coordinates are affine
in the ORIGINAL input pair. -/
def TouchTransformCoordsSpec (pcmat : calibration_mat_t) (Px Py : Int) :
    Int × Int :=
  let d1024 : Rat := 1 / 1024
  ( ratTruncToInt
      (d1024 * pcmat.KX1 * (Px : Rat) + d1024 * pcmat.KX2 * (Py : Rat) +
        pcmat.KX3 + 1 / 2),
    ratTruncToInt
      (d1024 * pcmat.KY1 * (Px : Rat) + d1024 * pcmat.KY2 * (Py : Rat) +
        pcmat.KY3 + 1 / 2) )

/-- Accumulators a[0..2], b[0..2], c[0..2], d[0..2] of
CalculateCalibrationMat. -/
structure calib_acc_t where
  a0 : Rat
  a1 : Rat
  a2 : Rat
  b0 : Rat
  b1 : Rat
  b2 : Rat
  c0 : Rat
  c1 : Rat
  c2 : Rat
  d0 : Rat
  d1 : Rat
  d2 : Rat
  deriving DecidableEq

/-- Epsilon threshold 1e-9 of the degeneracy checks. -/
def calibEps : Rat := 1 / 1000000000

/-- One iteration of the n > 3 accumulation loop of
CalculateCalibrationMat (index i; `ixl = i << 1`).  Note `b[0] = a[1]`
is re-executed each iteration after a[1] was updated, so b0 always
tracks a1. -/
def calibAccumStep (pReferencePoint pSamplePoint : Nat → Int)
    (acc : calib_acc_t) (i : Nat) : calib_acc_t :=
  let x : Rat := (pSamplePoint (2 * i) : Rat)
  let y : Rat := (pSamplePoint (2 * i + 1) : Rat)
  let rx : Rat := (pReferencePoint (2 * i) : Rat)
  let ry : Rat := (pReferencePoint (2 * i + 1) : Rat)
  { a0 := acc.a0 + x * x
    a1 := acc.a1 + x * y
    a2 := acc.a2 + x
    b0 := acc.a1 + x * y
    b1 := acc.b1 + y * y
    b2 := acc.b2 + y
    c0 := acc.c0 + x * rx
    c1 := acc.c1 + y * rx
    c2 := acc.c2 + rx
    d0 := acc.d0 + x * ry
    d1 := acc.d1 + y * ry
    d2 := acc.d2 + ry }

/-- The zero-initialized accumulators (`a[i] = b[i] = c[i] = d[i] = 0`). -/
def calibAccZero : calib_acc_t :=
  { a0 := 0, a1 := 0, a2 := 0, b0 := 0, b1 := 0, b2 := 0,
    c0 := 0, c1 := 0, c2 := 0, d0 := 0, d1 := 0, d2 := 0 }

/-- Accumulation loop of CalculateCalibrationMat over i < npoints. -/
def calibAccum (pReferencePoint pSamplePoint : Nat → Int) (npoints : Nat) :
    calib_acc_t :=
  (List.range npoints).foldl (calibAccumStep pReferencePoint pSamplePoint)
    calibAccZero

/-- The exact 3-point initialization of CalculateCalibrationMat
(`a[i] = sample x, b[i] = sample y, c[i] = ref x, d[i] = ref y`). -/
def calibExact3 (pReferencePoint pSamplePoint : Nat → Int) : calib_acc_t :=
  { a0 := (pSamplePoint 0 : Rat), a1 := (pSamplePoint 2 : Rat),
    a2 := (pSamplePoint 4 : Rat)
    b0 := (pSamplePoint 1 : Rat), b1 := (pSamplePoint 3 : Rat),
    b2 := (pSamplePoint 5 : Rat)
    c0 := (pReferencePoint 0 : Rat), c1 := (pReferencePoint 2 : Rat),
    c2 := (pReferencePoint 4 : Rat)
    d0 := (pReferencePoint 1 : Rat), d1 := (pReferencePoint 3 : Rat),
    d2 := (pReferencePoint 5 : Rat) }

/-- Normalization block of the n > 3 branch: the eight divisions by the
coordinate sums a2/b2 followed by the four multiplications by
`fnpointsM1 = 1 / npoints`. -/
def calibNormalize (acc : calib_acc_t) (npoints : Int) : calib_acc_t :=
  let fnpointsM1 : Rat := 1 / (npoints : Rat)
  { a0 := acc.a0 / acc.a2
    a1 := acc.a1 / acc.b2
    b0 := acc.b0 / acc.a2
    b1 := acc.b1 / acc.b2
    c0 := acc.c0 / acc.a2
    c1 := acc.c1 / acc.b2
    d0 := acc.d0 / acc.a2
    d1 := acc.d1 / acc.b2
    a2 := acc.a2 * fnpointsM1
    b2 := acc.b2 * fnpointsM1
    c2 := acc.c2 * fnpointsM1
    d2 := acc.d2 * fnpointsM1 }

/-- Determinant `k` of the 2x2 normal system as CalculateCalibrationMat
computes it from the (normalized) accumulators. -/
def calibK (acc : calib_acc_t) : Rat :=
  (acc.a0 - acc.a2) * (acc.b1 - acc.b2) -
    (acc.a1 - acc.a2) * (acc.b0 - acc.b2)

/-- Shared tail of CalculateCalibrationMat: the determinant check
(returning -3 with the output matrix untouched) and, on success, the
Cramer-rule coefficient writes and the `return npoints`. -/
def calibFinish (acc : calib_acc_t) (npoints : Int)
    (pcmat : calibration_mat_t) : Int × calibration_mat_t :=
  let k := calibK acc
  if |k| < calibEps then (-3, pcmat)
  else
    let kM1 := 1 / k
    ( npoints,
      { KX1 := ((acc.c0 - acc.c2) * (acc.b1 - acc.b2) -
            (acc.c1 - acc.c2) * (acc.b0 - acc.b2)) * kM1
        KX2 := ((acc.c1 - acc.c2) * (acc.a0 - acc.a2) -
            (acc.c0 - acc.c2) * (acc.a1 - acc.a2)) * kM1
        KX3 := (acc.b0 * (acc.a2 * acc.c1 - acc.a1 * acc.c2) +
            acc.b1 * (acc.a0 * acc.c2 - acc.a2 * acc.c0) +
            acc.b2 * (acc.a1 * acc.c0 - acc.a0 * acc.c1)) * kM1
        KY1 := ((acc.d0 - acc.d2) * (acc.b1 - acc.b2) -
            (acc.d1 - acc.d2) * (acc.b0 - acc.b2)) * kM1
        KY2 := ((acc.d1 - acc.d2) * (acc.a0 - acc.a2) -
            (acc.d0 - acc.d2) * (acc.a1 - acc.a2)) * kM1
        KY3 := (acc.b0 * (acc.a2 * acc.d1 - acc.a1 * acc.d2) +
            acc.b1 * (acc.a0 * acc.d2 - acc.a2 * acc.d0) +
            acc.b2 * (acc.a1 * acc.d0 - acc.a0 * acc.d1)) * kM1 } )

/-- CalculateCalibrationMat of msp2807_calibration.c.  Returns the
status code and the (possibly unchanged) output matrix: -1 for fewer
than 3 points; in the n > 3 branch, -2 when either accumulated
coordinate sum a[2] = sum of sample x or b[2] = sum of sample y is
below epsilon in absolute value (`fabs(a[2]) < 1e-9` etc.); -3 from the
shared determinant check; npoints on success. -/
def CalculateCalibrationMat (pReferencePoint pSamplePoint : Nat → Int)
    (npoints : Int) (pcmat : calibration_mat_t) :
    Int × calibration_mat_t :=
  if npoints < 3 then (-1, pcmat)
  else if npoints = 3 then
    calibFinish (calibExact3 pReferencePoint pSamplePoint) npoints pcmat
  else
    let acc := calibAccum pReferencePoint pSamplePoint npoints.toNat
    if |acc.a2| < calibEps ∨ |acc.b2| < calibEps then (-2, pcmat)
    else calibFinish (calibNormalize acc npoints) npoints pcmat

/-- An all-clear screen buffer: no pixel set, all attribute bytes 0,
cursor at the origin, canvas colors black paper / white ink. -/
def zeroScreen : screen_control_t :=
  { mpPixBuffer := fun _ => false, mpColorBuffer := fun _ => 0,
    mCursorX := 0, mCursorY := 0, mCanvasPaper := 0, mCanvasInk := 7 }

/-- zeroScreen with exactly the pixel of flat index 8 set — pixel
(8, 0), which lies in attribute block (1, 0). -/
def pixBit8Screen : screen_control_t :=
  { zeroScreen with mpPixBuffer := fun n => n == 8 }

/-- zeroScreen whose attribute text row 2 (block indices 60..89)
carries the byte 9 (ink 1, paper 1, not dirty). -/
def rowTwoNineScreen : screen_control_t :=
  { zeroScreen with
    mpColorBuffer := fun k => if 60 ≤ k ∧ k < 90 then 9 else 0 }

/-- C1: the dirty-flag invariant fails on TftClearRect8.  On a buffer
whose only set pixel is (8, 0) — inside block (1, 0) — the in-bounds
call TftClearRect8(pscr, 0, 0) clears that pixel (the C code zeroes the
whole 32-bit word, 32 pixels wide, although its doc says it clears the
8x8 rectangle), yet block (1, 0)'s attribute byte stays 0: its dirty
flag is not set after a drawing operation changed its pixel bits.  Only
block (0, 0) is marked (byte 64). -/
theorem TftClearRect8_clears_neighbor_block_without_marking_dirty :
    ((TftClearRect8 pixBit8Screen 0 0).mpPixBuffer 8 = false ∧
      pixBit8Screen.mpPixBuffer 8 = true) ∧
    (TftClearRect8 pixBit8Screen 0 0).mpColorBuffer 1 = 0 ∧
    (TftClearRect8 pixBit8Screen 0 0).mpColorBuffer 0 = 64 := by decide

/-- C3: uniform clipping fails on TftPutLine.  The end point
(240, 0) lies outside [0, 240) x [0, 320), yet
TftPutLine(pscr, 240, 0, 240, 0) is not rejected (the code tests
`x0 > PIX_WIDTH`, not `> PIX_WIDTH - 1` as TftPutPixel does): it sets
the flat pixel bit 240 and the dirty flag of block index 30, so the
buffer changes. -/
theorem TftPutLine_draws_at_x_eq_240 :
    ((TftPutLine zeroScreen 240 0 240 0).mpPixBuffer 240 = true ∧
      zeroScreen.mpPixBuffer 240 = false) ∧
    (TftPutLine zeroScreen 240 0 240 0).mpColorBuffer 30 = 64 ∧
    ¬ (240 : Int) < PIX_WIDTH := by decide

/-- C4: after TftScrollVerticalZone(pscr, 0, 2) on a buffer whose
attribute row 2 carries byte 9 (ink 1, paper 1), the freed bottom text
row of the zone (row 1, block index 30) holds 9 ||| 64 = 73: the
attribute memmove copies one row beyond the zone, so the freed row
inherits the colors of row 2 — ink/paper bits 9 — instead of the
default canvas colors (ink 7, paper 0, i.e. byte 7). -/
theorem TftScrollVerticalZone_bottom_row_inherits_attrs_from_below :
    (TftScrollVerticalZone rowTwoNineScreen 0 2).mpColorBuffer 30 = 73 ∧
    (73 : Nat) &&& 63 = 9 ∧
    rowTwoNineScreen.mpColorBuffer 60 = 9 ∧
    (rowTwoNineScreen.mCanvasInk.toNat |||
      (rowTwoNineScreen.mCanvasPaper.toNat <<< 3)) = 7 ∧
    (9 : Nat) ≠ 7 := by decide

/-- A validly configured touch control structure: hardware config
present, beta = 5, min-flick 1000 us, long-press 50000 us, last touch
at t = 5, no sample pending (mIsProcessed = false). -/
def touchCtlValid : touch_control_t :=
  { mpHWConfig := some { mGPIO_ispressed := 15 }, mIsPressed := false,
    mTmOfLastTouch := 5, mIsProcessed := false, mX := 0, mY := 0,
    mXf := 0, mYf := 0, mkTmMinFlick := 1000, mkTmLongFlick := 50000,
    mkBetaShft := 5 }

/-- A tick with the press line low (pressed) at the same timestamp as
the last accepted touch: elapsed time 0, inside the min-flick window. -/
def touchEnvPressedSameTick : touch_env_t :=
  { gpioIsPressedLevel := false, timeNow := 5, rawX := 100, rawY := 200 }

/-- C5 counterexample: on a pressed tick within the min-flick window
CheckTouch returns 0 although no sample was processed — the control
structure is returned completely unchanged (in particular mX/mY keep
their old values and mIsProcessed stays false).  The claim's reading
(0 exactly when a sample was processed this tick, 1 when pressed but
within the window) is false at this input. -/
theorem CheckTouch_returns_zero_without_processing_a_sample :
    CheckTouch touchEnvPressedSameTick (some touchCtlValid) =
      (some touchCtlValid, 0) ∧
    touchCtlValid.mIsProcessed = false := by decide

/-- The calibration matrix of claim C9's failing input: KX = (0, 0,
100), KY = (1024, 0, 0). -/
def mat9 : calibration_mat_t :=
  { KX1 := 0, KX2 := 0, KX3 := 100, KY1 := 1024, KY2 := 0, KY3 := 0 }

/-- C9: TouchTransformCoords computes the Y output from the already
transformed X.  With KX = (0, 0, 100), KY = (1024, 0, 0) and input
(5, 7) the code yields (100, 100) — `*Py = trunc(1024/1024 * *Px +
0.5)` reads the freshly written `*Px = 100` — while the claimed affine
map on the ORIGINAL pair (TouchTransformCoordsSpec) yields (100, 5).
Every float operation involved is exact at these values, so the exact
rational model agrees with the float code here. -/
theorem TouchTransformCoords_uses_transformed_Px_for_Py :
    TouchTransformCoords mat9 5 7 = (100, 100) ∧
    TouchTransformCoordsSpec mat9 5 7 = (100, 5) ∧
    TouchTransformCoords mat9 5 7 ≠ TouchTransformCoordsSpec mat9 5 7 := by
  norm_num [TouchTransformCoords, TouchTransformCoordsSpec, ratTruncToInt,
    mat9]

theorem u64Sub_eq_sub (a b : Nat) (hba : b ≤ a) (ha : a < 2 ^ 64) :
    u64Sub (a % 2 ^ 64) b = a - b := by
  unfold u64Sub; omega

theorem u64Sub_self_mod (a : Nat) : u64Sub (a % 2 ^ 64) (a % 2 ^ 64) = 0 := by
  unfold u64Sub; omega

theorem intToU64_mono (i j : Int) (h0 : 0 ≤ i) (hij : i ≤ j)
    (h1 : j < 2 ^ 64) : intToU64 i ≤ intToU64 j := by
  unfold intToU64; omega

/-- C5 (amended): CheckTouch status codes as the code implements them:
-1 iff the control structure is NULL; -2 iff the hardware config is
NULL or the filter beta shift is <= 0; with a valid configuration, 1
iff the press line reads high (not pressed, the line being active low),
in which case the whole control state — the processed flag included —
is left untouched and nothing is sampled; and 0 iff the line reads low
(pressed), whether or not a new sample was taken this tick. -/
theorem CheckTouch_status_code_characterization (env : touch_env_t) :
    CheckTouch env none = (none, -1) ∧
    (∀ c : touch_control_t, c.mpHWConfig = none ∨ c.mkBetaShft ≤ 0 →
      CheckTouch env (some c) = (some c, -2)) ∧
    (∀ c : touch_control_t, c.mpHWConfig.isSome → 0 < c.mkBetaShft →
      env.gpioIsPressedLevel = true →
      CheckTouch env (some c) = (some c, 1)) ∧
    (∀ c : touch_control_t, c.mpHWConfig.isSome → 0 < c.mkBetaShft →
      env.gpioIsPressedLevel = false →
      (CheckTouch env (some c)).2 = 0) := by
  refine ⟨rfl, ?_, ?_, ?_⟩
  · intro c h
    have hn : ¬ (c.mpHWConfig.isSome ∧ c.mkBetaShft > 0) := by
      rcases h with h | h
      · simp [h]
      · simp; omega
    simp [CheckTouch, hn]
  · intro c h1 h2 h3
    simp [CheckTouch, h1, h2, h3]
  · intro c h1 h2 h3
    simp [CheckTouch, h1, h2, h3]

/-- A tick with the press line high (physically not pressed). -/
def touchEnvNotPressed : touch_env_t :=
  { gpioIsPressedLevel := true, timeNow := 7, rawX := 1, rawY := 2 }

/-- C5 witness: the characterization applied at a concrete not-pressed
tick on a valid control structure. -/
theorem CheckTouch_status_code_characterization_witness :
    CheckTouch touchEnvNotPressed (some touchCtlValid) =
      (some touchCtlValid, 1) :=
  (CheckTouch_status_code_characterization touchEnvNotPressed).2.2.1
    touchCtlValid (by decide) (by decide) (by decide)

/-- Behaviour claim C6 states for one pressed tick of CheckTouch with
elapsed time `timeNow - mTmOfLastTouch`: above the long-press threshold
the filtered position snaps to raw << 14 (with no additional smoothing
update on the same tick); above the min-flick threshold but not the
long-press threshold each axis receives exactly one exponential filter
update from the freshly read raw value; within the min-flick window the
control state — the filtered position in particular — is unchanged. -/
def CheckTouchTickSpec (env : touch_env_t) (c : touch_control_t) : Prop :=
  ((CheckTouch env (some c)).1.getD c).mXf =
    (if intToU64 c.mkTmLongFlick < env.timeNow - c.mTmOfLastTouch then
      cShl (env.rawX : Int) 14
    else if intToU64 c.mkTmMinFlick < env.timeNow - c.mTmOfLastTouch then
      touchFilterStep (cShl (env.rawX : Int) 14) c.mkBetaShft c.mXf
    else c.mXf) ∧
  ((CheckTouch env (some c)).1.getD c).mYf =
    (if intToU64 c.mkTmLongFlick < env.timeNow - c.mTmOfLastTouch then
      cShl (env.rawY : Int) 14
    else if intToU64 c.mkTmMinFlick < env.timeNow - c.mTmOfLastTouch then
      touchFilterStep (cShl (env.rawY : Int) 14) c.mkBetaShft c.mYf
    else c.mYf) ∧
  (env.timeNow - c.mTmOfLastTouch ≤ intToU64 c.mkTmMinFlick →
    (CheckTouch env (some c)).1.getD c = c)

/-- C6: on a pressed tick with a valid configuration (and sane
thresholds `0 <= min-flick <= long-press`, times below 2^64 with the
last-touch time not in the future), CheckTouch snaps above the
long-press threshold with no additional filter update that tick,
applies exactly one exponential update per axis when the elapsed time
exceeds the min-flick but not the long-press threshold, and leaves the
filtered position (indeed the whole state) unchanged within the
min-flick window — so two samples closer than the min-flick threshold
never produce two filter updates. -/
theorem CheckTouch_snap_filter_hold (env : touch_env_t)
    (c : touch_control_t)
    (hhw : c.mpHWConfig.isSome) (hbeta : 0 < c.mkBetaShft)
    (hpress : env.gpioIsPressedLevel = false)
    (hlast : c.mTmOfLastTouch ≤ env.timeNow)
    (hnow : env.timeNow < 2 ^ 64)
    (hmf0 : 0 ≤ c.mkTmMinFlick)
    (hmfl : c.mkTmMinFlick ≤ c.mkTmLongFlick)
    (hlf : c.mkTmLongFlick < 2 ^ 64) :
    CheckTouchTickSpec env c := by
  have hsub : u64Sub (env.timeNow % 2 ^ 64) c.mTmOfLastTouch
      = env.timeNow - c.mTmOfLastTouch := u64Sub_eq_sub _ _ hlast hnow
  unfold CheckTouchTickSpec
  simp only [CheckTouch, hpress, Bool.not_false, if_true, ite_true,
    ite_false, Bool.false_eq_true, not_false_eq_true]
  rw [if_pos (show c.mpHWConfig.isSome = true ∧ c.mkBetaShft > 0 from
    ⟨hhw, hbeta⟩)]
  simp only [hsub, TouchReadRegisters]
  by_cases hlong : intToU64 c.mkTmLongFlick < env.timeNow - c.mTmOfLastTouch
  · rw [if_pos hlong]
    simp only [Option.getD_some, u64Sub_self_mod, Nat.not_lt_zero,
      gt_iff_lt, if_neg (Nat.not_lt_zero _), if_pos hlong]
    refine ⟨by trivial, by trivial, fun h => ?_⟩
    exact absurd (h.trans (intToU64_mono _ _ hmf0 hmfl hlf))
      (not_le.mpr hlong)
  · rw [if_neg hlong]
    simp only [hsub]
    by_cases hmin : intToU64 c.mkTmMinFlick < env.timeNow - c.mTmOfLastTouch
    · rw [if_pos hmin]
      simp only [Option.getD_some, gt_iff_lt, if_neg hlong, if_pos hmin]
      refine ⟨by trivial, by trivial, fun h => ?_⟩
      exact absurd h (not_le.mpr hmin)
    · rw [if_neg hmin]
      simp only [Option.getD_some, if_neg hlong, if_neg hmin]
      exact ⟨by trivial, by trivial, fun _ => by trivial⟩

/-- A pressed tick 2000 us after the last accepted touch: beyond the
min-flick threshold (1000) of touchCtlValid, within its long-press
threshold (50000). -/
def touchEnvFilterTick : touch_env_t :=
  { gpioIsPressedLevel := false, timeNow := 2005, rawX := 100, rawY := 200 }

/-- C6 witness: the tick specification applied at a concrete
single-filter-update tick on the valid control structure. -/
theorem CheckTouch_snap_filter_hold_witness :
    CheckTouchTickSpec touchEnvFilterTick touchCtlValid :=
  CheckTouch_snap_filter_hold touchEnvFilterTick touchCtlValid
    (by decide) (by decide) (by decide) (by decide) (by decide)
    (by decide) (by decide) (by decide)

theorem touchFilterStep_core (T beta f : Int) (hbeta : 1 ≤ beta) :
    ∃ q r : Int, touchFilterStep T beta f = f + q ∧
      T - f + 2 ^ (beta - 1).toNat =
        2 * 2 ^ (beta - 1).toNat * q + r ∧
      0 ≤ r ∧ r < 2 * 2 ^ (beta - 1).toNat := by
  have hpow : (0:Int) < 2 ^ (beta - 1).toNat := pow_pos (by norm_num) _
  have hb : beta.toNat = (beta - 1).toNat + 1 := by omega
  have h2 : (2:Int) ^ beta.toNat = 2 * 2 ^ (beta - 1).toNat := by
    rw [hb, pow_succ]; ring
  refine ⟨Int.fdiv (T - f + 2 ^ (beta - 1).toNat) (2 * 2 ^ (beta - 1).toNat),
    (T - f + 2 ^ (beta - 1).toNat) % (2 * 2 ^ (beta - 1).toNat),
    ?_, ?_, ?_, ?_⟩
  · unfold touchFilterStep cSar cShl
    rw [h2]; ring_nf
  · rw [Int.fdiv_eq_ediv _ (by positivity)]
    exact (Int.ediv_add_emod _ _).symm
  · exact Int.emod_nonneg _ (by positivity)
  · exact Int.emod_lt_of_pos _ (by positivity)

theorem touchFilterStep_le_of_le (T beta f : Int) (hbeta : 1 ≤ beta)
    (h : f ≤ T) :
    f ≤ touchFilterStep T beta f ∧ touchFilterStep T beta f ≤ T := by
  obtain ⟨q, r, hstep, hid, hr0, hrlt⟩ := touchFilterStep_core T beta f hbeta
  have hH : (1:Int) ≤ 2 ^ (beta - 1).toNat := one_le_pow₀ (by norm_num)
  constructor
  · rw [hstep]
    nlinarith [hid, hr0, hrlt, hH, h]
  · rw [hstep]
    nlinarith [hid, hr0, hrlt, hH, h]

theorem touchFilterStep_ge_of_ge (T beta f : Int) (hbeta : 1 ≤ beta)
    (h : T ≤ f) :
    touchFilterStep T beta f ≤ f ∧ T ≤ touchFilterStep T beta f := by
  obtain ⟨q, r, hstep, hid, hr0, hrlt⟩ := touchFilterStep_core T beta f hbeta
  have hH : (1:Int) ≤ 2 ^ (beta - 1).toNat := one_le_pow₀ (by norm_num)
  constructor
  · rw [hstep]
    nlinarith [hid, hr0, hrlt, hH, h]
  · rw [hstep]
    nlinarith [hid, hr0, hrlt, hH, h]

theorem touchFilterStep_fixed_iff (T beta f : Int) (hbeta : 1 ≤ beta) :
    touchFilterStep T beta f = f ↔
      -(2 ^ (beta - 1).toNat) ≤ T - f ∧ T - f < 2 ^ (beta - 1).toNat := by
  obtain ⟨q, r, hstep, hid, hr0, hrlt⟩ := touchFilterStep_core T beta f hbeta
  have hH : (1:Int) ≤ 2 ^ (beta - 1).toNat := one_le_pow₀ (by norm_num)
  rw [hstep]
  constructor
  · intro hq
    have hq0 : q = 0 := by omega
    constructor <;> nlinarith [hid, hr0, hrlt, hq0]
  · rintro ⟨h1, h2⟩
    have hq0 : q = 0 := by nlinarith [hid, hr0, hrlt]
    omega

theorem touchFilterStep_progress (T beta f : Int) (hbeta : 1 ≤ beta)
    (h : touchFilterStep T beta f ≠ f) :
    (T - touchFilterStep T beta f).natAbs < (T - f).natAbs := by
  rcases le_total f T with hle | hge
  · obtain ⟨h1, h2⟩ := touchFilterStep_le_of_le T beta f hbeta hle
    have : f < touchFilterStep T beta f := lt_of_le_of_ne h1 (Ne.symm h)
    omega
  · obtain ⟨h1, h2⟩ := touchFilterStep_ge_of_ge T beta f hbeta hge
    have : touchFilterStep T beta f < f := lt_of_le_of_ne h1 h
    omega

theorem touchFilter_reaches_fixed (T beta : Int) (hbeta : 1 ≤ beta) :
    ∀ k : Nat, ∀ f : Int, (T - f).natAbs ≤ k →
      ∃ n ≤ k, touchFilterStep T beta ((touchFilterStep T beta)^[n] f) =
        (touchFilterStep T beta)^[n] f := by
  intro k
  induction k with
  | zero =>
    intro f hf
    refine ⟨0, le_refl _, ?_⟩
    simp only [Function.iterate_zero, id_eq]
    rw [touchFilterStep_fixed_iff T beta f hbeta]
    have hH : (1:Int) ≤ 2 ^ (beta - 1).toNat := one_le_pow₀ (by norm_num)
    omega
  | succ k ih =>
    intro f hf
    by_cases hfix : touchFilterStep T beta f = f
    · exact ⟨0, Nat.zero_le _, by simpa using hfix⟩
    · have hprog := touchFilterStep_progress T beta f hbeta hfix
      obtain ⟨n, hn, hfix2⟩ := ih (touchFilterStep T beta f) (by omega)
      refine ⟨n + 1, by omega, ?_⟩
      rw [Function.iterate_succ_apply]
      exact hfix2

/-- Convergence claim C7 holds for after amendment: iterating the
CheckTouch filter update on a constant target `T = raw << 14` is
monotone toward T and never crosses it; within `|T - f0|` iterations it
reaches a fixed point of the update, where it remains forever, and
every fixed point lies within `2 ^ (beta - 1)` of T (the exact fixed
points being `T - f` in `[-2^(beta-1), 2^(beta-1))`) — but that fixed
point need not be T itself. -/
def touchFilterConvergenceSpec (T beta f0 : Int) : Prop :=
  (f0 ≤ T → ∀ n : Nat,
    (touchFilterStep T beta)^[n] f0 ≤ (touchFilterStep T beta)^[n + 1] f0 ∧
    (touchFilterStep T beta)^[n + 1] f0 ≤ T) ∧
  (T ≤ f0 → ∀ n : Nat,
    (touchFilterStep T beta)^[n + 1] f0 ≤ (touchFilterStep T beta)^[n] f0 ∧
    T ≤ (touchFilterStep T beta)^[n + 1] f0) ∧
  (∃ n : Nat, n ≤ (T - f0).natAbs ∧
    touchFilterStep T beta ((touchFilterStep T beta)^[n] f0) =
      (touchFilterStep T beta)^[n] f0 ∧
    |T - (touchFilterStep T beta)^[n] f0| ≤ 2 ^ (beta - 1).toNat ∧
    ∀ m : Nat, n ≤ m →
      (touchFilterStep T beta)^[m] f0 = (touchFilterStep T beta)^[n] f0)

/-- C7 (amended): for every beta >= 1, constant raw target and integer
start, the filter iteration converges monotonically, without ever
crossing the target, to a fixed point reached within `|target - start|`
iterations and lying within `2 ^ (beta - 1)` of the target. -/
theorem touchFilter_band_convergence (T beta f0 : Int) (hbeta : 1 ≤ beta) :
    touchFilterConvergenceSpec T beta f0 := by
  have hH : (1:Int) ≤ 2 ^ (beta - 1).toNat := one_le_pow₀ (by norm_num)
  have mono_le : ∀ g : Int, g ≤ T → ∀ n : Nat,
      (touchFilterStep T beta)^[n] g ≤ T := by
    intro g hg n
    induction n with
    | zero => simpa using hg
    | succ n ih =>
      rw [Function.iterate_succ_apply']
      exact (touchFilterStep_le_of_le T beta _ hbeta ih).2
  have mono_ge : ∀ g : Int, T ≤ g → ∀ n : Nat,
      T ≤ (touchFilterStep T beta)^[n] g := by
    intro g hg n
    induction n with
    | zero => simpa using hg
    | succ n ih =>
      rw [Function.iterate_succ_apply']
      exact (touchFilterStep_ge_of_ge T beta _ hbeta ih).2
  refine ⟨?_, ?_, ?_⟩
  · intro h0 n
    have hb := mono_le f0 h0 n
    rw [Function.iterate_succ_apply']
    exact ⟨(touchFilterStep_le_of_le T beta _ hbeta hb).1,
      (touchFilterStep_le_of_le T beta _ hbeta hb).2⟩
  · intro h0 n
    have hb := mono_ge f0 h0 n
    rw [Function.iterate_succ_apply']
    exact ⟨(touchFilterStep_ge_of_ge T beta _ hbeta hb).1,
      (touchFilterStep_ge_of_ge T beta _ hbeta hb).2⟩
  · obtain ⟨n, hn, hfix⟩ :=
      touchFilter_reaches_fixed T beta hbeta (T - f0).natAbs f0 (le_refl _)
    refine ⟨n, hn, hfix, ?_, ?_⟩
    · have := (touchFilterStep_fixed_iff T beta _ hbeta).mp hfix
      rw [abs_le]
      omega
    · intro m hm
      obtain ⟨j, rfl⟩ : ∃ j, m = n + j := ⟨m - n, by omega⟩
      rw [add_comm, Function.iterate_add_apply]
      exact Function.iterate_fixed hfix j

/-- C7 counterexample: with beta = 5 and constant raw sample 0 (target
0 << 14 = 0) the filter started at 10 is already stuck — the update
increment `(0 - 10 + 16) >> 5` is zero — so after 100 iterations it
still sits at 10, never reaching the claimed limit `raw << 14 = 0`. -/
theorem touchFilter_stuck_away_from_target :
    touchFilterStep 0 5 10 = 10 ∧
    (touchFilterStep 0 5)^[100] 10 = 10 ∧ (10 : Int) ≠ 0 := by
  refine ⟨by decide, ?_, by decide⟩
  exact Function.iterate_fixed (by decide) 100

/-- C7 witness: the band-convergence specification at beta = 5,
target 100 << 14, start 0. -/
theorem touchFilter_band_convergence_witness :
    touchFilterConvergenceSpec 1638400 5 0 :=
  touchFilter_band_convergence 1638400 5 0 (by decide)

theorem calibAccum_sums (ref smpl : Nat → Int) (m : Nat) :
    (calibAccum ref smpl m).a2 =
      ∑ i ∈ Finset.range m, ((smpl (2 * i) : Rat)) ∧
    (calibAccum ref smpl m).b2 =
      ∑ i ∈ Finset.range m, ((smpl (2 * i + 1) : Rat)) ∧
    (calibAccum ref smpl m).a0 =
      ∑ i ∈ Finset.range m, ((smpl (2 * i) : Rat)) ^ 2 ∧
    (calibAccum ref smpl m).a1 =
      ∑ i ∈ Finset.range m,
        ((smpl (2 * i) : Rat)) * ((smpl (2 * i + 1) : Rat)) ∧
    (calibAccum ref smpl m).b0 = (calibAccum ref smpl m).a1 ∧
    (calibAccum ref smpl m).b1 =
      ∑ i ∈ Finset.range m, ((smpl (2 * i + 1) : Rat)) ^ 2 := by
  induction m with
  | zero => simp [calibAccum, calibAccZero]
  | succ m ih =>
    obtain ⟨h1, h2, h3, h4, h5, h6⟩ := ih
    unfold calibAccum at h1 h2 h3 h4 h5 h6 ⊢
    rw [List.range_succ, List.foldl_append, List.foldl_cons, List.foldl_nil]
    simp only [calibAccumStep, Finset.sum_range_succ, h1, h2, h3, h4, h5, h6]
    refine ⟨by trivial, by trivial, by ring, by ring, by ring, by ring⟩

/-- Error taxonomy claim C8 holds for after amendment: the return code
of CalculateCalibrationMat is -1 iff fewer than 3 points; for
npoints > 3 it is -2 iff one of the two accumulated COORDINATE SUMS
(a[2] = sum of sample x, b[2] = sum of sample y — the normal-equation
divisors, not the sums of squares) is below epsilon in absolute value,
and otherwise -3 iff the 2x2 determinant of the normalized system is
below epsilon; every failing path leaves the output matrix untouched,
and a nonnegative return equals npoints (with npoints >= 3). -/
def calibrationTaxonomySpec (ref smpl : Nat → Int) (npoints : Int)
    (pcmat : calibration_mat_t) : Prop :=
  ((CalculateCalibrationMat ref smpl npoints pcmat).1 = -1 ↔
    npoints < 3) ∧
  (3 < npoints →
    ((CalculateCalibrationMat ref smpl npoints pcmat).1 = -2 ↔
      |∑ i ∈ Finset.range npoints.toNat, ((smpl (2 * i) : Rat))| <
        calibEps ∨
      |∑ i ∈ Finset.range npoints.toNat, ((smpl (2 * i + 1) : Rat))| <
        calibEps)) ∧
  (3 < npoints →
    ¬ (|∑ i ∈ Finset.range npoints.toNat, ((smpl (2 * i) : Rat))| <
         calibEps ∨
       |∑ i ∈ Finset.range npoints.toNat, ((smpl (2 * i + 1) : Rat))| <
         calibEps) →
    ((CalculateCalibrationMat ref smpl npoints pcmat).1 = -3 ↔
      |calibK (calibNormalize (calibAccum ref smpl npoints.toNat)
        npoints)| < calibEps)) ∧
  ((CalculateCalibrationMat ref smpl npoints pcmat).1 < 0 →
    (CalculateCalibrationMat ref smpl npoints pcmat).2 = pcmat) ∧
  (0 ≤ (CalculateCalibrationMat ref smpl npoints pcmat).1 →
    (CalculateCalibrationMat ref smpl npoints pcmat).1 = npoints ∧
      3 ≤ npoints)

/-- C8 (amended): the full error taxonomy of the calibration solver,
with the -2 trigger corrected from "sum of squares" to the accumulated
coordinate sums the code actually tests. -/
theorem CalculateCalibrationMat_error_taxonomy (ref smpl : Nat → Int)
    (npoints : Int) (pcmat : calibration_mat_t) :
    calibrationTaxonomySpec ref smpl npoints pcmat := by
  obtain ⟨ha2, hb2, -, -, -, -⟩ := calibAccum_sums ref smpl npoints.toNat
  unfold calibrationTaxonomySpec CalculateCalibrationMat
  by_cases h3 : npoints < 3
  · simp only [if_pos h3]
    refine ⟨by simp [h3], by omega, by omega, fun _ => by trivial,
      by norm_num <;> omega⟩
  · rw [if_neg h3]
    by_cases heq : npoints = 3
    · subst heq
      unfold calibFinish
      by_cases hk : |calibK (calibExact3 ref smpl)| < calibEps
      · rw [if_pos hk]
        refine ⟨by norm_num, by omega, by omega, fun _ => by trivial,
          by norm_num⟩
      · rw [if_neg hk]
        refine ⟨by norm_num, by omega, by omega, by norm_num,
          by norm_num⟩
    · rw [if_neg heq]
      have h3lt : 3 < npoints := by omega
      by_cases hsum : |(calibAccum ref smpl npoints.toNat).a2| < calibEps ∨
          |(calibAccum ref smpl npoints.toNat).b2| < calibEps
      · rw [if_pos hsum]
        rw [ha2, hb2] at hsum
        refine ⟨by norm_num <;> omega, fun _ => by simp [hsum], ?_,
          fun _ => by trivial, by norm_num <;> omega⟩
        intro _ hns
        exact absurd hsum hns
      · rw [if_neg hsum]
        rw [ha2, hb2] at hsum
        unfold calibFinish
        by_cases hk : |calibK (calibNormalize
            (calibAccum ref smpl npoints.toNat) npoints)| < calibEps
        · rw [if_pos hk]
          refine ⟨by norm_num <;> omega, fun _ => by simp [hsum] <;> omega,
            fun _ _ => by simp [hk], fun _ => by trivial,
            by norm_num <;> omega⟩
        · rw [if_neg hk]
          refine ⟨by norm_num <;> omega, fun _ => by simp [hsum] <;> omega,
            fun _ _ => by simp [hk] <;> omega, by norm_num <;> omega,
            fun _ => ⟨by trivial, by omega⟩⟩

/-- Sample points of the C8 counterexample: (1,1), (-1,2), (1,3),
(-1,4) — the sample x coordinates sum to 0 while both sums of squares
(4 for x, 30 for y) are far above epsilon. -/
def smplPointsCE : Nat → Int := fun i => [1, 1, -1, 2, 1, 3, -1, 4].getD i 0

/-- Reference points of the C8 counterexample (screen corners). -/
def refPointsCE : Nat → Int :=
  fun i => [0, 0, 240, 0, 0, 320, 240, 320].getD i 0

/-- The zero calibration matrix (stands for the caller's untouched
output buffer). -/
def matZero : calibration_mat_t :=
  { KX1 := 0, KX2 := 0, KX3 := 0, KY1 := 0, KY2 := 0, KY3 := 0 }

/-- C8 counterexample: with 4 points whose sample x coordinates sum to
zero, CalculateCalibrationMat returns -2 although the accumulated
sum-of-squares of both axes (a[0] = 4, b[1] = 30) is nowhere near the
epsilon threshold: the -2 check tests the coordinate sums a[2]/b[2]
(here a[2] = 0), not the sums of squares named by the claim.  All float
operations are exact at these small integer inputs, so the rational
model coincides with the float code. -/
theorem CalculateCalibrationMat_minus2_despite_large_sum_of_squares :
    (CalculateCalibrationMat refPointsCE smplPointsCE 4 matZero).1 = -2 ∧
    (calibAccum refPointsCE smplPointsCE 4).a0 = 4 ∧
    (calibAccum refPointsCE smplPointsCE 4).b1 = 30 ∧
    (calibAccum refPointsCE smplPointsCE 4).a2 = 0 ∧
    ¬ |(4 : Rat)| < calibEps ∧ ¬ |(30 : Rat)| < calibEps := by
  norm_num [CalculateCalibrationMat, calibAccum, calibAccumStep,
    calibAccZero, calibEps, smplPointsCE, refPointsCE,
    show (Int.toNat 4) = 4 from rfl,
    show List.range 4 = [0, 1, 2, 3] from rfl]

/-- C8 witness: the amended taxonomy applied at the concrete
counterexample input. -/
theorem CalculateCalibrationMat_error_taxonomy_witness :
    calibrationTaxonomySpec refPointsCE smplPointsCE 4 matZero :=
  CalculateCalibrationMat_error_taxonomy refPointsCE smplPointsCE 4 matZero

/-- Prefix of the dirty-block list a scan with budget `b` writes: the
whole list when b <= 0 (the post-decrement `!--nblock_max` can reach 0
only from a positive count), else the first `b` entries. -/
def scanBudgetTake {α : Type} (b : Int) (l : List α) : List α :=
  if b ≤ 0 then l else l.take b.toNat

/-- The block indices of `ks` whose attribute byte has the `need
update` bit 6 set, in scan order. -/
def dirtyBlockList (attr : Int → Nat) (ks : List Int) : List Int :=
  ks.filter fun k => decide ((attr k >>> 6) &&& 1 = 1)

/-- TftSymbolWrite invoked by the scan on block `k` (coordinates
`k % TEXT_WIDTH`, `k / TEXT_WIDTH`) clears bit 6 exactly at index k. -/
theorem TftSymbolWriteAttr_flat (attr : Int → Nat) (k : Int) :
    TftSymbolWriteAttr attr (k % TEXT_WIDTH) (k / TEXT_WIDTH) =
      fun j => if j = k then attr j &&& 191 else attr j := by
  funext j
  unfold TftSymbolWriteAttr
  have h30 : k / TEXT_WIDTH * TEXT_WIDTH + k % TEXT_WIDTH = k := by
    have h := Int.ediv_add_emod k 30
    unfold TEXT_WIDTH
    omega
  rw [h30]

theorem scanBudgetTake_cons (b : Int) (hb : b ≠ 1) {α : Type} (k : α)
    (l : List α) :
    scanBudgetTake b (k :: l) = k :: scanBudgetTake (b - 1) l := by
  unfold scanBudgetTake
  by_cases h0 : b ≤ 0
  · rw [if_pos h0, if_pos (by omega)]
  · rw [if_neg h0, if_neg (by omega)]
    have : b.toNat = (b - 1).toNat + 1 := by omega
    rw [this, List.take_succ_cons]

theorem scanBudgetTake_subset {α : Type} (b : Int) (l : List α) :
    ∀ x ∈ scanBudgetTake b l, x ∈ l := by
  intro x hx
  unfold scanBudgetTake at hx
  by_cases h0 : b ≤ 0
  · rw [if_pos h0] at hx; exact hx
  · rw [if_neg h0] at hx; exact List.take_subset _ _ hx

/-- One-step unfolding of the scan on a nonempty block list. -/
theorem TftSelectiveScan_cons (pix : Int → Bool) (attr : Int → Nat)
    (k : Int) (rest : List Int) (nb : Int) :
    TftSelectiveScan pix attr (k :: rest) nb =
      if (attr k >>> 6) &&& 1 = 1 then
        (if nb - 1 = 0 then
          (TftSymbolWriteAttr attr (k % TEXT_WIDTH) (k / TEXT_WIDTH),
            [(k, TftSymbolData pix (attr k) (k % TEXT_WIDTH)
              (k / TEXT_WIDTH))], 0)
        else
          ((TftSelectiveScan pix (TftSymbolWriteAttr attr (k % TEXT_WIDTH)
              (k / TEXT_WIDTH)) rest (nb - 1)).1,
            (k, TftSymbolData pix (attr k) (k % TEXT_WIDTH)
              (k / TEXT_WIDTH)) ::
              (TftSelectiveScan pix (TftSymbolWriteAttr attr (k % TEXT_WIDTH)
                (k / TEXT_WIDTH)) rest (nb - 1)).2.1,
            (TftSelectiveScan pix (TftSymbolWriteAttr attr (k % TEXT_WIDTH)
              (k / TEXT_WIDTH)) rest (nb - 1)).2.2))
      else TftSelectiveScan pix attr rest nb := rfl

/-- Closed form of the selective scan over any duplicate-free block
list: the written blocks are exactly the budget-limited prefix of the
dirty list in scan order (each with its rendered data), the new color
plane clears bit 6 at exactly those blocks, and the status is 0 iff
the budget is positive and at most the number of dirty blocks. -/
theorem TftSelectiveScan_characterization (pix : Int → Bool) :
    ∀ (ks : List Int), ks.Nodup → ∀ (attr : Int → Nat) (b : Int),
      (TftSelectiveScan pix attr ks b).2.1 =
        (scanBudgetTake b (dirtyBlockList attr ks)).map
          (fun k => (k, TftSymbolData pix (attr k) (k % TEXT_WIDTH)
            (k / TEXT_WIDTH))) ∧
      (∀ j : Int, (TftSelectiveScan pix attr ks b).1 j =
        if j ∈ scanBudgetTake b (dirtyBlockList attr ks) then
          attr j &&& 191 else attr j) ∧
      (TftSelectiveScan pix attr ks b).2.2 =
        (if 1 ≤ b ∧ b ≤ ((dirtyBlockList attr ks).length : Int) then 0
         else 1) := by
  intro ks
  induction ks with
  | nil =>
    intro _ attr b
    refine ⟨by simp [scanBudgetTake, dirtyBlockList, TftSelectiveScan],
      fun j => by simp [scanBudgetTake, dirtyBlockList, TftSelectiveScan],
      ?_⟩
    have : ¬ (1 ≤ b ∧ b ≤ ((dirtyBlockList attr []).length : Int)) := by
      simp [dirtyBlockList]; omega
    rw [if_neg this]
    rfl
  | cons k rest ih =>
    intro hnd attr b
    obtain ⟨hk, hrest⟩ := List.nodup_cons.mp hnd
    by_cases hd : (attr k >>> 6) &&& 1 = 1
    · -- dirty head: it is written and its update bit cleared
      have hdl : dirtyBlockList attr (k :: rest) =
          k :: dirtyBlockList attr rest := by
        unfold dirtyBlockList
        rw [List.filter_cons, if_pos (decide_eq_true hd)]
      by_cases hb1 : b = 1
      · -- budget exhausted by this very write
        subst hb1
        have hres : TftSelectiveScan pix attr (k :: rest) 1 =
            (TftSymbolWriteAttr attr (k % TEXT_WIDTH) (k / TEXT_WIDTH),
              [(k, TftSymbolData pix (attr k) (k % TEXT_WIDTH)
                (k / TEXT_WIDTH))], 0) := by
          rw [TftSelectiveScan_cons, if_pos hd, if_pos (by norm_num)]
        rw [hres, hdl]
        have htake : scanBudgetTake 1 (k :: dirtyBlockList attr rest) =
            [k] := by
          unfold scanBudgetTake
          rw [if_neg (by omega)]
          rfl
        rw [htake]
        refine ⟨by simp, ?_, ?_⟩
        · intro j
          rw [TftSymbolWriteAttr_flat]
          simp only [List.mem_singleton]
        · rw [if_pos (by constructor <;> simp <;> omega)]
      · -- budget not exhausted here: recurse with b - 1
        have hres : TftSelectiveScan pix attr (k :: rest) b =
            ((TftSelectiveScan pix (TftSymbolWriteAttr attr (k % TEXT_WIDTH)
                (k / TEXT_WIDTH)) rest (b - 1)).1,
              (k, TftSymbolData pix (attr k) (k % TEXT_WIDTH)
                (k / TEXT_WIDTH)) ::
                (TftSelectiveScan pix (TftSymbolWriteAttr attr
                  (k % TEXT_WIDTH) (k / TEXT_WIDTH)) rest (b - 1)).2.1,
              (TftSelectiveScan pix (TftSymbolWriteAttr attr (k % TEXT_WIDTH)
                (k / TEXT_WIDTH)) rest (b - 1)).2.2) := by
          rw [TftSelectiveScan_cons, if_pos hd, if_neg (by omega)]
        have hup := TftSymbolWriteAttr_flat attr k
        obtain ⟨ihw, ihattr, ihcode⟩ := ih hrest
          (TftSymbolWriteAttr attr (k % TEXT_WIDTH) (k / TEXT_WIDTH)) (b - 1)
        -- on rest the cleared head is invisible
        have hagree : ∀ j ∈ rest, TftSymbolWriteAttr attr (k % TEXT_WIDTH)
            (k / TEXT_WIDTH) j = attr j := by
          intro j hj
          rw [hup]
          exact if_neg fun (hjk : j = k) => hk (hjk ▸ hj)
        have hdl2 : dirtyBlockList (TftSymbolWriteAttr attr (k % TEXT_WIDTH)
            (k / TEXT_WIDTH)) rest = dirtyBlockList attr rest := by
          unfold dirtyBlockList
          exact List.filter_congr (fun j hj => by rw [hagree j hj])
        have hsub : ∀ j ∈ scanBudgetTake (b - 1) (dirtyBlockList attr rest),
            j ∈ rest := by
          intro j hj
          have := scanBudgetTake_subset _ _ _ hj
          unfold dirtyBlockList at this
          exact List.mem_of_mem_filter this
        rw [hres, hdl, scanBudgetTake_cons b hb1]
        refine ⟨?_, ?_, ?_⟩
        · rw [ihw, hdl2]
          simp only [List.map_cons, List.cons.injEq, true_and]
          exact List.map_congr_left (fun j hj => by
            rw [hagree j (hsub j hj)])
        · intro j
          rw [ihattr j, hdl2]
          simp only [hup]
          by_cases hjk : j = k
          · subst hjk
            have hnin : j ∉ scanBudgetTake (b - 1)
                (dirtyBlockList attr rest) := fun h => hk (hsub j h)
            simp [hnin, List.mem_cons]
          · simp [hjk, List.mem_cons]
        · rw [ihcode, hdl2]
          by_cases hcond : 1 ≤ b - 1 ∧
              b - 1 ≤ ((dirtyBlockList attr rest).length : Int)
          · rw [if_pos hcond, if_pos (by
              constructor
              · omega
              · simp only [List.length_cons]
                push_cast
                omega)]
          · rw [if_neg hcond, if_neg (by
              simp only [List.length_cons]
              push_cast
              push_cast at hcond
              omega)]
    · -- head not dirty: skipped entirely
      have hres : TftSelectiveScan pix attr (k :: rest) b =
          TftSelectiveScan pix attr rest b := by
        rw [TftSelectiveScan_cons, if_neg hd]
      have hdl : dirtyBlockList attr (k :: rest) =
          dirtyBlockList attr rest := by
        unfold dirtyBlockList
        rw [List.filter_cons,
          if_neg (fun hc => hd (of_decide_eq_true hc))]
      rw [hres, hdl]
      exact ih hrest attr b

/-- The C test `(v >> i) & 1` extracts bit i. -/
theorem shiftRight_and_one_eq (w i : Nat) :
    (w >>> i) &&& 1 = if w.testBit i then 1 else 0 := by
  rw [Nat.and_one_is_mod, Nat.testBit_to_div_mod, Nat.shiftRight_eq_div_pow]
  rcases Nat.mod_two_eq_zero_or_one (w / 2 ^ i) with h | h <;> simp [h]

/-- After `&= ~(1 << 6)` (mask 191) the `need update` test fails. -/
theorem and191_not_dirty (v : Nat) : ¬ (((v &&& 191) >>> 6) &&& 1 = 1) := by
  rw [shiftRight_and_one_eq]
  have : (v &&& 191).testBit 6 = false := by
    rw [Nat.testBit_and]
    simp [show Nat.testBit 191 6 = false from by decide]
  simp [this]

/-- Casting Nat block indices into Int is injective. -/
theorem natCastInt_injective : Function.Injective (fun n : Nat => (n : Int)) :=
  fun a b h => by simpa using h

/-- The scan visits every block exactly once. -/
theorem blockScanOrder_nodup : blockScanOrder.Nodup := by
  unfold blockScanOrder
  exact List.Nodup.map natCastInt_injective (List.nodup_range _)

/-- The screen's dirty blocks in row-major scan order. -/
def dirtyBlocks (pscr : screen_control_t) : List Int :=
  dirtyBlockList pscr.mpColorBuffer blockScanOrder

/-- Contract claim C2 states for TftFullScreenSelectiveWrite with a
budget >= 1: it streams exactly the first `nblock_max` dirty blocks in
row-major order (each rendered through its ink/paper colors), returns
the more-pending code 0 iff the budget stopped the scan (nblock_max <=
number of dirty blocks), clears the dirty flag of exactly the written
blocks, leaves no dirty block behind whenever it reports complete (1),
and — after a flush whose budget covers all TEXT_CHARCOUNT blocks — an
immediately repeated call writes nothing and reports complete. -/
def SelectiveFlushContract (pscr : screen_control_t)
    (nblock_max : Int) : Prop :=
  (TftFullScreenSelectiveWrite pscr nblock_max).2.1 =
    ((dirtyBlocks pscr).take nblock_max.toNat).map
      (fun k => (k, TftSymbolData pscr.mpPixBuffer (pscr.mpColorBuffer k)
        (k % TEXT_WIDTH) (k / TEXT_WIDTH))) ∧
  ((TftFullScreenSelectiveWrite pscr nblock_max).2.2 = 0 ↔
    nblock_max ≤ ((dirtyBlocks pscr).length : Int)) ∧
  (∀ k : Int,
    (TftFullScreenSelectiveWrite pscr nblock_max).1.mpColorBuffer k =
      if k ∈ (dirtyBlocks pscr).take nblock_max.toNat then
        pscr.mpColorBuffer k &&& 191 else pscr.mpColorBuffer k) ∧
  ((TftFullScreenSelectiveWrite pscr nblock_max).2.2 = 1 →
    ∀ k ∈ blockScanOrder,
      ¬ ((((TftFullScreenSelectiveWrite pscr nblock_max).1.mpColorBuffer k)
        >>> 6) &&& 1 = 1)) ∧
  ((TEXT_CHARCOUNT : Int) ≤ nblock_max →
    (TftFullScreenSelectiveWrite
      (TftFullScreenSelectiveWrite pscr nblock_max).1 nblock_max).2 =
      ([], 1))

set_option maxRecDepth 8000 in
/-- C2: the budgeted selective-flush contract holds for every screen
state and every budget >= 1. -/
theorem TftFullScreenSelectiveWrite_contract (pscr : screen_control_t)
    (nblock_max : Int) (hb : 1 ≤ nblock_max) :
    SelectiveFlushContract pscr nblock_max := by
  unfold SelectiveFlushContract dirtyBlocks
  obtain ⟨hw, hattr, hcode⟩ := TftSelectiveScan_characterization
    pscr.mpPixBuffer blockScanOrder blockScanOrder_nodup
    pscr.mpColorBuffer nblock_max
  have htake : scanBudgetTake nblock_max
      (dirtyBlockList pscr.mpColorBuffer blockScanOrder) =
      (dirtyBlockList pscr.mpColorBuffer blockScanOrder).take
        nblock_max.toNat := by
    unfold scanBudgetTake
    rw [if_neg (by omega)]
  have hlen : ((dirtyBlockList pscr.mpColorBuffer blockScanOrder).length :
      Int) ≤ (TEXT_CHARCOUNT : Int) := by
    have h1 : (dirtyBlockList pscr.mpColorBuffer blockScanOrder).length ≤
        blockScanOrder.length :=
      List.length_filter_le _ _
    have h2 : blockScanOrder.length = TEXT_CHARCOUNT := by
      unfold blockScanOrder
      rw [List.length_map, List.length_range]
    omega
  have hsw : ∀ x : screen_control_t, ∀ b : Int,
      (TftFullScreenSelectiveWrite x b).2.1 =
        (TftSelectiveScan x.mpPixBuffer x.mpColorBuffer blockScanOrder b).2.1
      ∧ (TftFullScreenSelectiveWrite x b).2.2 =
        (TftSelectiveScan x.mpPixBuffer x.mpColorBuffer blockScanOrder b).2.2
      ∧ (TftFullScreenSelectiveWrite x b).1.mpColorBuffer =
        (TftSelectiveScan x.mpPixBuffer x.mpColorBuffer blockScanOrder b).1
      ∧ (TftFullScreenSelectiveWrite x b).1.mpPixBuffer = x.mpPixBuffer := by
    intro x b
    unfold TftFullScreenSelectiveWrite
    exact ⟨rfl, rfl, rfl, rfl⟩
  obtain ⟨hw1, hc1, ha1, hp1⟩ := hsw pscr nblock_max
  refine ⟨?_, ?_, ?_, ?_, ?_⟩
  · rw [hw1, hw, htake]
  · rw [hc1, hcode]
    constructor
    · intro h
      by_cases hcond : 1 ≤ nblock_max ∧
          nblock_max ≤ ((dirtyBlockList pscr.mpColorBuffer
            blockScanOrder).length : Int)
      · exact hcond.2
      · rw [if_neg hcond] at h
        exact absurd h (by norm_num)
    · intro h
      rw [if_pos ⟨hb, h⟩]
  · intro k
    rw [ha1, hattr k, htake]
  · intro h1 k hk
    have hgt : ((dirtyBlockList pscr.mpColorBuffer blockScanOrder).length :
        Int) < nblock_max := by
      rw [hc1, hcode] at h1
      by_cases hcond : 1 ≤ nblock_max ∧
          nblock_max ≤ ((dirtyBlockList pscr.mpColorBuffer
            blockScanOrder).length : Int)
      · rw [if_pos hcond] at h1
        exact absurd h1 (by norm_num)
      · push_neg at hcond
        exact hcond hb
    have htake2 : (dirtyBlockList pscr.mpColorBuffer blockScanOrder).take
        nblock_max.toNat = dirtyBlockList pscr.mpColorBuffer blockScanOrder :=
      List.take_of_length_le (by omega)
    rw [ha1, hattr k, htake, htake2]
    by_cases hmem : k ∈ dirtyBlockList pscr.mpColorBuffer blockScanOrder
    · rw [if_pos hmem]
      exact and191_not_dirty _
    · rw [if_neg hmem]
      intro hdirty
      exact hmem (List.mem_filter.mpr ⟨hk, decide_eq_true hdirty⟩)
  · intro hbig
    -- after the first flush no block is dirty, so a second scan writes
    -- nothing and reports complete
    have hgt : ((dirtyBlockList pscr.mpColorBuffer blockScanOrder).length :
        Int) ≤ nblock_max := by omega
    have htake2 : (dirtyBlockList pscr.mpColorBuffer blockScanOrder).take
        nblock_max.toNat = dirtyBlockList pscr.mpColorBuffer blockScanOrder :=
      List.take_of_length_le (by omega)
    have hclean : ∀ k ∈ blockScanOrder,
        ¬ ((((TftFullScreenSelectiveWrite pscr nblock_max).1.mpColorBuffer
          k) >>> 6) &&& 1 = 1) := by
      intro k hk
      rw [ha1, hattr k, htake, htake2]
      by_cases hmem : k ∈ dirtyBlockList pscr.mpColorBuffer blockScanOrder
      · rw [if_pos hmem]
        exact and191_not_dirty _
      · rw [if_neg hmem]
        intro hdirty
        exact hmem (List.mem_filter.mpr ⟨hk, decide_eq_true hdirty⟩)
    have hnil : dirtyBlockList
        ((TftFullScreenSelectiveWrite pscr nblock_max).1.mpColorBuffer)
        blockScanOrder = [] := by
      unfold dirtyBlockList
      rw [List.filter_eq_nil]
      intro k hk
      intro hc
      exact hclean k hk (of_decide_eq_true hc)
    obtain ⟨hw2, hc2, ha2, hp2⟩ :=
      hsw (TftFullScreenSelectiveWrite pscr nblock_max).1 nblock_max
    obtain ⟨hw', hattr', hcode'⟩ := TftSelectiveScan_characterization
      (TftFullScreenSelectiveWrite pscr nblock_max).1.mpPixBuffer
      blockScanOrder blockScanOrder_nodup
      (TftFullScreenSelectiveWrite pscr nblock_max).1.mpColorBuffer
      nblock_max
    have hpair : (TftFullScreenSelectiveWrite
        (TftFullScreenSelectiveWrite pscr nblock_max).1 nblock_max).2 =
        ((TftFullScreenSelectiveWrite
          (TftFullScreenSelectiveWrite pscr nblock_max).1
            nblock_max).2.1,
         (TftFullScreenSelectiveWrite
          (TftFullScreenSelectiveWrite pscr nblock_max).1
            nblock_max).2.2) := rfl
    rw [hpair, hw2, hc2, hw', hcode', hnil]
    have : scanBudgetTake nblock_max ([] : List Int) = [] := by
      unfold scanBudgetTake
      rw [if_neg (by omega)]
      exact List.take_nil
    rw [this]
    have hnc : ¬ (1 ≤ nblock_max ∧
        nblock_max ≤ (([] : List Int).length : Int)) := by
      simp
      omega
    rw [if_neg hnc]
    rfl

/-- Behaviour claim C10 states for a zero or negative budget: the scan
is never stopped — every dirty block is written and cleared and the
call reports complete (1), leaving no dirty block. -/
def SelectiveFlushUnlimitedSpec (pscr : screen_control_t)
    (nblock_max : Int) : Prop :=
  (TftFullScreenSelectiveWrite pscr nblock_max).2.1 =
    (dirtyBlocks pscr).map
      (fun k => (k, TftSymbolData pscr.mpPixBuffer (pscr.mpColorBuffer k)
        (k % TEXT_WIDTH) (k / TEXT_WIDTH))) ∧
  (TftFullScreenSelectiveWrite pscr nblock_max).2.2 = 1 ∧
  (∀ k : Int,
    (TftFullScreenSelectiveWrite pscr nblock_max).1.mpColorBuffer k =
      if k ∈ dirtyBlocks pscr then
        pscr.mpColorBuffer k &&& 191 else pscr.mpColorBuffer k) ∧
  (∀ k ∈ blockScanOrder,
    ¬ ((((TftFullScreenSelectiveWrite pscr nblock_max).1.mpColorBuffer k)
      >>> 6) &&& 1 = 1))

set_option maxRecDepth 8000 in
/-- C10: a zero or negative budget behaves as an unlimited budget, not
as `write nothing`: the post-decrement test `!--nblock_max` reaches
zero only from a positive count, so the scan runs to the end, writes
every dirty block, clears every dirty flag, and returns 1. -/
theorem TftFullScreenSelectiveWrite_nonpositive_budget
    (pscr : screen_control_t) (nblock_max : Int) (hb : nblock_max ≤ 0) :
    SelectiveFlushUnlimitedSpec pscr nblock_max := by
  unfold SelectiveFlushUnlimitedSpec dirtyBlocks
  obtain ⟨hw, hattr, hcode⟩ := TftSelectiveScan_characterization
    pscr.mpPixBuffer blockScanOrder blockScanOrder_nodup
    pscr.mpColorBuffer nblock_max
  have htake : scanBudgetTake nblock_max
      (dirtyBlockList pscr.mpColorBuffer blockScanOrder) =
      dirtyBlockList pscr.mpColorBuffer blockScanOrder := by
    unfold scanBudgetTake
    rw [if_pos hb]
  have hsw : (TftFullScreenSelectiveWrite pscr nblock_max).2.1 =
        (TftSelectiveScan pscr.mpPixBuffer pscr.mpColorBuffer
          blockScanOrder nblock_max).2.1
      ∧ (TftFullScreenSelectiveWrite pscr nblock_max).2.2 =
        (TftSelectiveScan pscr.mpPixBuffer pscr.mpColorBuffer
          blockScanOrder nblock_max).2.2
      ∧ (TftFullScreenSelectiveWrite pscr nblock_max).1.mpColorBuffer =
        (TftSelectiveScan pscr.mpPixBuffer pscr.mpColorBuffer
          blockScanOrder nblock_max).1 := by
    unfold TftFullScreenSelectiveWrite
    exact ⟨rfl, rfl, rfl⟩
  obtain ⟨hw1, hc1, ha1⟩ := hsw
  refine ⟨?_, ?_, ?_, ?_⟩
  · rw [hw1, hw, htake]
  · rw [hc1, hcode, if_neg (by omega)]
  · intro k
    rw [ha1, hattr k, htake]
  · intro k hk
    rw [ha1, hattr k, htake]
    by_cases hmem : k ∈ dirtyBlockList pscr.mpColorBuffer blockScanOrder
    · rw [if_pos hmem]
      exact and191_not_dirty _
    · rw [if_neg hmem]
      intro hdirty
      exact hmem (List.mem_filter.mpr ⟨hk, decide_eq_true hdirty⟩)

/-- C2 witness: the contract applied at a concrete screen and budget 1. -/
theorem TftFullScreenSelectiveWrite_contract_witness :
    SelectiveFlushContract pixBit8Screen 1 :=
  TftFullScreenSelectiveWrite_contract pixBit8Screen 1 (by norm_num)

/-- C10 witness: the unlimited-budget behaviour at budget 0. -/
theorem TftFullScreenSelectiveWrite_nonpositive_budget_witness :
    SelectiveFlushUnlimitedSpec pixBit8Screen 0 :=
  TftFullScreenSelectiveWrite_nonpositive_budget pixBit8Screen 0
    (by norm_num)
